import Mathlib

/-!
Verification development for the RAG-Server repository.

The file embeds, as executable Lean definitions, the logic-bearing parts of
the repository:

* `app/knowledge_base.py` — the section catalog and the keyword-based
  context selector `get_relevant_context`;
* `app/gemini_client.py` — the retry loop `_call_with_retry`, the single
  consumer `_queue_worker`, the prompt builder `_build_system_prompt` and
  the public `chat` entry point;
* `RAG-Server/app/main.py` — the string-based failure classification of the
  chat endpoint.

Python strings are embedded as Lean `String`s; the substring operator
`kw in s` becomes an infix test on the character lists; `str.lower()`
becomes a character-wise `Char.toLower` map.  Python `sorted` with a key and
`reverse=True` is a stable sort; it is embedded with `List.mergeSort`
(stable) under the comparator that puts higher scores first and leaves ties
in catalog order.  The provider adapter is a black box; it is modelled as a
function from the attempt number to a result, exactly the adapter-stub view
the specification uses for its testable properties.
-/

namespace RagServer

/-! ## knowledge_base.py — data model -/

/-- Embedding of the frozen dataclass `Section` (knowledge_base.py:4-9). -/
structure Section where
  id       : String
  title    : String
  keywords : List String
  content  : String
deriving DecidableEq

/-- Python `needle in hay` (substring containment) on strings. -/
def strIn (needle hay : String) : Bool :=
  decide (needle.data <:+: hay.data)

/-- Python `s.lower()`: character-wise lower-casing.  (Embedded directly on
the character list so that it evaluates by kernel reduction.) -/
def lowerStr (s : String) : String :=
  ⟨ s.data.map Char.toLower ⟩

/-- The fixed catalog `SECTIONS` (knowledge_base.py:12-195), second
knowledge-base revision, transcribed verbatim. -/
def SECTIONS : List Section := [
  ⟨ "overview", "1. General Product Overview",
    [ "skedulelt", "skeduleit", "what is", "about", "overview",
      "platform", "ios", "android", "trinidad", "mobile app",
      "website", "web app" ],
    "SkeduleIt is a mobile scheduling and payment solution designed for service\n"
    ++ "providers and customers in Trinidad & Tobago (T&T).\n"
    ++ "\n"
    ++ "Target Users : Service businesses (barbers, hairdressers, aestheticians, etc.)\n"
    ++ "               and their customers.\n"
    ++ "Platforms    : iOS and Android mobile apps, plus a public website.\n"
    ++ "               A web app with full functionality will be available soon.\n"
    ++ "\n"
    ++ "Two Apps:\n"
    ++ "• Customer App  - Browse businesses, book appointments, manage bookings\n"
    ++ "• Business App  - Manage profile, services, team, availability, payments" ⟩,
  ⟨ "account_signup", "2. Account Creation & Signup",
    [ "sign up", "signup", "create account", "register", "new account",
      "customer account", "business account", "credit card", "payment info",
      "approval", "review process", "free trial" ],
    "=== Customer Accounts ===\n"
    ++ "When you create a customer account, you can immediately:\n"
    ++ "• Browse businesses\n"
    ++ "• Schedule appointments\n"
    ++ "• Manage upcoming appointments\n"
    ++ "• Receive confirmations and reminders\n"
    ++ "\n"
    ++ "No credit card required. Your account is active immediately upon signup.\n"
    ++ "\n"
    ++ "=== Business Accounts ===\n"
    ++ "When a business signs up, the account enters a brief review process to ensure\n"
    ++ "only legitimate businesses are listed. Once approved, you can:\n"
    ++ "• Create your business profile\n"
    ++ "• Add services and pricing\n"
    ++ "• Add team members (service providers)\n"
    ++ "• Manage availability\n"
    ++ "• Handle appointments\n"
    ++ "• Use payment and reporting tools\n"
    ++ "\n"
    ++ "No credit card required during signup or free trial. Payment details are only\n"
    ++ "needed if you choose to continue with a paid plan after the trial.\n"
    ++ "\n"
    ++ "=== Guest Booking ===\n"
    ++ "Customers can browse and book appointments WITHOUT creating an account, but\n"
    ++ "certain features (like managing bookings and receiving reminders) require signup." ⟩,
  ⟨ "business_vs_provider", "3. Business vs Service Provider",
    [ "business", "service provider", "team member", "employee",
      "sole trader", "independent contractor", "difference",
      "multiple providers", "add team", "staff" ],
    "=== What\x27s the Difference? ===\n"
    ++ "\n"
    ++ "Business:\n"
    ++ "The company or entity listed on SkeduleIt (e.g., \x27Trini Cuts Barbershop\x27).\n"
    ++ "\n"
    ++ "Service Provider:\n"
    ++ "An individual who performs the service - whether an employee, team member,\n"
    ++ "sole trader, or independent contractor under that business.\n"
    ++ "\n"
    ++ "Example:\n"
    ++ "• \x27Trini Cuts Barbershop\x27 is the Business\n"
    ++ "• \x27Marcus (Barber)\x27 and \x27Jade (Barber)\x27 are Service Providers\n"
    ++ "\n"
    ++ "For Sole Traders:\n"
    ++ "If you work alone, the business and service provider are essentially the same.\n"
    ++ "\n"
    ++ "=== Adding Multiple Service Providers ===\n"
    ++ "Yes! Businesses can add multiple service providers or team members to their\n"
    ++ "account and assign specific services to each person." ⟩,
  ⟨ "customer_faq", "4. Customer FAQ",
    [ "book", "booking", "schedule", "appointment", "make appointment",
      "browse", "search", "find business", "cancel appointment",
      "manage booking", "confirmation", "reminder" ],
    "=== How do I book an appointment? ===\n"
    ++ "Open the SkeduleIt Customer App, browse or search for a business, view their\n"
    ++ "services and availability, and select a time slot. You can book with or without\n"
    ++ "creating an account.\n"
    ++ "\n"
    ++ "=== Can I manage my appointments? ===\n"
    ++ "Yes! If you have a customer account, you can view, reschedule, or cancel\n"
    ++ "upcoming appointments directly in the app. You\x27ll also receive confirmations\n"
    ++ "and reminders.\n"
    ++ "\n"
    ++ "=== Is my information private? ===\n"
    ++ "Yes. Your customer information is completely private and never visible to\n"
    ++ "other customers." ⟩,
  ⟨ "business_faq", "5. Business FAQ",
    [ "manage", "schedule", "availability", "calendar", "working hours",
      "business profile", "services", "pricing", "team", "payments",
      "reporting", "analytics", "social media", "instagram", "facebook",
      "booking link", "share" ],
    "=== How do I manage my business profile? ===\n"
    ++ "Use the Business App to create and edit your profile, add services with pricing,\n"
    ++ "set your availability, and manage your team.\n"
    ++ "\n"
    ++ "=== Can I share my SkeduleIt booking link? ===\n"
    ++ "Yes! You can share your SkeduleIt booking link on Instagram, Facebook, WhatsApp,\n"
    ++ "and other platforms so customers can book services directly.\n"
    ++ "\n"
    ++ "=== Does SkeduleIt handle payments? ===\n"
    ++ "Yes. SkeduleIt includes integrated payment processing tools.\n"
    ++ "\n"
    ++ "=== Can I see business performance and earnings? ===\n"
    ++ "Yes. The Business App includes reporting and analytics tools to track your\n"
    ++ "transactions, popular services, and earnings." ⟩,
  ⟨ "support_help", "6. Help & Support",
    [ "help", "support", "contact", "assistance", "learn more",
      "onboarding", "get help", "customer service" ],
    "=== Where can I get help? ===\n"
    ++ "Support is available through the in-app \x27Help & Support\x27 section in both the\n"
    ++ "Customer and Business apps.\n"
    ++ "\n"
    ++ "Additional resources:\n"
    ++ "• SkeduleIt website\n"
    ++ "• Social media platforms\n"
    ++ "• Onboarding assistance for businesses during early rollout\n"
    ++ "\n"
    ++ "=== Where can I learn more about SkeduleIt? ===\n"
    ++ "Information is available in the app\x27s Help & Support section, on the SkeduleIt\n"
    ++ "website, and across social media platforms." ⟩,
  ⟨ "account_management", "7. Account Management",
    [ "cancel account", "close account", "delete account",
      "deactivate", "remove account", "account closure" ],
    "=== Can I cancel my account? ===\n"
    ++ "Yes. Both customers and businesses can request account closure at any time.\n"
    ++ "A confirmation step is included for security.\n"
    ++ "\n"
    ++ "For businesses: Closing your account will remove your business from SkeduleIt\n"
    ++ "and cancel all future appointments." ⟩ ]

/-- The f-string block `f"### \x7bs.title\x7d\n\x7bs.content\x7d"` used both by
`get_full_knowledge_base` and `get_relevant_context`. -/
def sectionBlock (s : Section) : String :=
  "### " ++ s.title ++ "\n" ++ s.content

/-- The `"\n\n---\n\n"` join delimiter (knowledge_base.py:201, 235). -/
def KB_SEP : String :=
  "\n\n---\n\n"

/-- Embedding of `get_full_knowledge_base` (knowledge_base.py:199-203). -/
def get_full_knowledge_base : String :=
  String.intercalate KB_SEP (SECTIONS.map sectionBlock)

/-- Embedding of the dataclass `RelevantContext` (knowledge_base.py:206-209). -/
structure RelevantContext where
  matched   : List String
  full_text : String
deriving DecidableEq

/-- The per-section score `sum(1 for kw in section.keywords if kw in lower)`
computed inside `get_relevant_context` (knowledge_base.py:221, 227). -/
def hitsOf (lower : String) (sec : Section) : Nat :=
  sec.keywords.countP (fun kw => strIn kw lower)

/-- The comparator realised by Python `sorted(..., key=score, reverse=True)`:
a stable sort that puts the higher score first and keeps ties in input
order. -/
def hitRank (lower : String) (a b : Section) : Bool :=
  decide (hitsOf lower b ≤ hitsOf lower a)

/-- The `matched` list of `get_relevant_context` (knowledge_base.py:220-229):
sections with at least one hit, stably sorted by score descending. -/
def matchedSections (lower : String) : List Section :=
  (SECTIONS.filter (fun sec => decide (0 < hitsOf lower sec))).mergeSort (hitRank lower)

/-- The `selected` list (knowledge_base.py:231): `matched if matched else
SECTIONS`. -/
def selectedSections (lower : String) : List Section :=
  if (matchedSections lower).isEmpty then SECTIONS else matchedSections lower

/-- Embedding of `get_relevant_context` (knowledge_base.py:212-236). -/
def get_relevant_context (query : String) : RelevantContext :=
  let selected := selectedSections (lowerStr query)
  ⟨ selected.map (fun s => s.title),
    String.intercalate KB_SEP (selected.map sectionBlock) ⟩

/-! ## gemini_client.py — retry loop and serialized queue worker

The provider adapter (`_client.models.generate_content`) is a black box; a
job's interaction with it is modelled by a stub `outcome : Nat → Except
PyExc String` giving the result of each numbered attempt, exactly the
adapter-stub view of §8 of the specification. -/

/-- Retry constants (gemini_client.py:25-26). -/
def MAX_RETRIES : Nat := 4

/-- `BASE_DELAY_S  = 2          # seconds; doubles each attempt`. -/
def BASE_DELAY_S : Nat := 2

/-- The attributes of a raised exception that `_call_with_retry` and the
endpoint handler inspect: optional `code` and `status_code` attributes and
the `str(e)` message. -/
structure PyExc where
  code        : Option Nat
  status_code : Option Nat
  msg         : String
deriving DecidableEq

/-- `status = getattr(exc, "code", None) or getattr(exc, "status_code",
None)` (gemini_client.py:99).  Python `or` falls through on falsy values,
i.e. on a missing attribute (`None`) and on a zero code. -/
def excStatus (e : PyExc) : Option Nat :=
  match e.code with
  | some c => if c = 0 then e.status_code else some c
  | none   => e.status_code

/-- Observable steps of one job inside `Executing`: a provider invocation
(`loop.run_in_executor(...)` at gemini_client.py:86) numbered by its
attempt, or a back-off sleep (`await asyncio.sleep(delay)` at line 105). -/
inductive RetryEvent where
  | invoke  (attempt : Nat)
  | backoff (delay : Nat)
deriving DecidableEq

/-- The body of the `for attempt in range(MAX_RETRIES + 1)` loop of
`_call_with_retry` (gemini_client.py:83-107), with the remaining iteration
count made explicit.  Returns the value returned / exception raised,
together with the chronological list of observable steps.  The fuel-0 case
corresponds to the `raise last_err` after the loop (line 109), which the
source itself marks `pragma: no cover — loop always raises before here`. -/
def callRetryGo (outcome : Nat → Except PyExc String) :
    Nat → Nat → Except PyExc String × List RetryEvent
  | 0, _ => (Except.error ⟨ none, none, "" ⟩, [])
  | fuel+1, attempt =>
    match outcome attempt with
    | Except.ok text => (Except.ok text, [RetryEvent.invoke attempt])
    | Except.error exc =>
      if excStatus exc = some 429 ∧ attempt < MAX_RETRIES then
        let rest := callRetryGo outcome fuel (attempt + 1)
        (rest.1, RetryEvent.invoke attempt ::
          RetryEvent.backoff (BASE_DELAY_S * 2 ^ attempt) :: rest.2)
      else
        (Except.error exc, [RetryEvent.invoke attempt])

/-- Embedding of `_call_with_retry` (gemini_client.py:76-109): the loop run
from attempt 0 with `MAX_RETRIES + 1` iterations available. -/
def _call_with_retry (outcome : Nat → Except PyExc String) :
    Except PyExc String × List RetryEvent :=
  callRetryGo outcome (MAX_RETRIES + 1) 0

/-- Whether a step is a provider invocation. -/
def isInvokeEvent : RetryEvent → Bool
  | RetryEvent.invoke _ => true
  | RetryEvent.backoff _ => false

/-- Number of provider invocations among a job's steps. -/
def invocationsOf (evs : List RetryEvent) : Nat :=
  (evs.filter isInvokeEvent).length

/-- The back-off delays among a job's steps, in chronological order. -/
def delaysOf (evs : List RetryEvent) : List Nat :=
  evs.filterMap (fun e => match e with
    | RetryEvent.backoff d => some d
    | RetryEvent.invoke _ => none)

/-- A queued job, reduced to its provider-adapter stub.  (In the source a
job is a `(future, contents)` pair; `contents` only feeds the adapter and
the future is fulfilled with the adapter outcome, so the stub determines
the whole execution.) -/
structure Job where
  outcome : Nat → Except PyExc String

/-- Observable events of the worker loop, tagged with the arrival index of
the job they belong to.  `settle` is the `future.set_result` /
`future.set_exception` step (gemini_client.py:69-71) that fulfils the
caller's future and makes the terminal state visible. -/
inductive Event where
  | invoke  (job attempt : Nat)
  | backoff (job delay : Nat)
  | settle  (job : Nat) (result : Except PyExc String)

/-- Tag a retry-loop step with its job index. -/
def tagEvent (job : Nat) : RetryEvent → Event
  | RetryEvent.invoke a => Event.invoke job a
  | RetryEvent.backoff d => Event.backoff job d

/-- One iteration of the worker `while True` body (gemini_client.py:65-73)
for the job of arrival index `id`: run `_call_with_retry` to completion,
then settle the future with its result. -/
def jobEvents (id : Nat) (j : Job) : List Event :=
  ((_call_with_retry j.outcome).2.map (tagEvent id)) ++
    [Event.settle id (_call_with_retry j.outcome).1]

/-- The worker loop over the remaining FIFO queue, with `i` the arrival
index of the queue head.  The single consumer coroutine awaits the full
retry wrapper and settles the future before the next `q.get()`, so its
event trace is the concatenation of the per-job traces in queue order. -/
def workerFrom : List Job → Nat → List Event
  | [], _ => []
  | j :: rest, i => jobEvents i j ++ workerFrom rest (i + 1)

/-- Embedding of `_queue_worker` (gemini_client.py:56-73) run on a queue
holding the jobs in arrival order `0, 1, 2, ...`. -/
def _queue_worker (jobs : List Job) : List Event :=
  workerFrom jobs 0

/-- Serialization rank of an event: all events of job `j` rank below the
settlement of job `j`, which ranks below every event of any later job. -/
def eventRank : Event → Nat
  | Event.invoke j _ => 2 * j
  | Event.backoff j _ => 2 * j
  | Event.settle j _ => 2 * j + 1

/-- The job index of a settlement event, if any. -/
def settleJob : Event → Option Nat
  | Event.settle j _ => some j
  | Event.invoke _ _ => none
  | Event.backoff _ _ => none

/-! ## gemini_client.py — prompt assembly and the chat entry point -/

/-- The horizontal bar of 48 U+2550 characters that frames the knowledge
base inside the system prompt (written by repetition to keep the source
free of a long literal run; the value is the source's literal). -/
def PROMPT_BAR : String :=
  String.mk (List.replicate 48 (Char.ofNat 0x2550))

/-- The literal part of `_build_system_prompt` before the knowledge base
(gemini_client.py:115-131). -/
def PROMPT_HEADER : String :=
  "You are the official Skedulelt Support Assistant.\n"
  ++ "Skedulelt is a mobile scheduling & payment app for service providers\n"
  ++ "and customers in Trinidad & Tobago.\n"
  ++ "\n"
  ++ "Rules:\n"
  ++ "  • Answer ONLY based on the knowledge base below.\n"
  ++ "  • If the question falls outside the knowledge base, say:\n"
  ++ "    \"I\x27m sorry, I don\x27t have information on that. Please contact\n"
  ++ "     our support team for further assistance.\"\n"
  ++ "  • Be friendly, concise, and helpful.\n"
  ++ "  • Do NOT hallucinate features, policies, or prices.\n"
  ++ "  • Respond in English.\n"
  ++ "\n"
  ++ PROMPT_BAR ++ "\n"
  ++ " SKEDULELT KNOWLEDGE BASE\n"
  ++ PROMPT_BAR ++ "\n"

/-- The literal closing bar of `_build_system_prompt`
(gemini_client.py:133). -/
def PROMPT_FOOTER : String :=
  "\n" ++ PROMPT_BAR

/-- Embedding of `_build_system_prompt` (gemini_client.py:114-134): header
rules, then `get_full_knowledge_base()`, then the closing bar. -/
def _build_system_prompt : String :=
  PROMPT_HEADER ++ get_full_knowledge_base ++ PROMPT_FOOTER

/-- The fixed grounding acknowledgment of the synthetic `model` turn
(gemini_client.py:176-180). -/
def GROUNDING_ACK : String :=
  "Got it. I\x27m the Skedulelt Support Assistant. "
  ++ "I\x27ll answer only based on the knowledge base provided. "
  ++ "How can I help?"

/-- A provider turn: `genai_types.Content(role=..., parts=[Part(text=...)])`
with its single text part. -/
structure Content where
  role : String
  text : String
deriving DecidableEq

/-- One caller-supplied history turn `{"role": "user"|"assistant",
"text": str}`. -/
structure ChatTurn where
  role : String
  text : String
deriving DecidableEq

/-- The loop body `role = "model" if turn["role"] == "assistant" else
"user"` (gemini_client.py:185-189). -/
def historyContent (turn : ChatTurn) : Content :=
  ⟨ if turn.role == "assistant" then "model" else "user", turn.text ⟩

/-- The `contents` list built by `chat` (gemini_client.py:168-194):
synthetic system turn, synthetic grounding acknowledgment, the mapped
history, and the current message appended as the final user turn. -/
def assembleContents (history : List ChatTurn) (current_message : String) :
    List Content :=
  (⟨ "user", _build_system_prompt ⟩ :: ⟨ "model", GROUNDING_ACK ⟩ ::
    history.map historyContent) ++ [⟨ "user", current_message ⟩]

/-- The dataclass `ChatResult` (gemini_client.py:139-142). -/
structure ChatResult where
  answer           : String
  matched_sections : List String
deriving DecidableEq

/-- Embedding of the public `chat` entry point (gemini_client.py:145-206).
`provider` is the adapter stub: given the assembled `contents` it yields
the outcome of each numbered attempt.  `chat` computes the observability
badge from the current message alone, assembles the contents, has the
worker run the retry-wrapped provider call, and returns the answer paired
with the matched titles (or propagates the exception set on the future). -/
def chat (provider : List Content → Nat → Except PyExc String)
    (history : List ChatTurn) (current_message : String) :
    Except PyExc ChatResult :=
  let ctx := get_relevant_context current_message
  let contents := assembleContents history current_message
  match (_call_with_retry (provider contents)).1 with
  | Except.ok answer => Except.ok ⟨ answer, ctx.matched ⟩
  | Except.error exc => Except.error exc

/-! ## main.py — failure classification of the chat endpoint -/

/-- Signals the endpoint maps to `rate_limit` (main.py:144). -/
def RATE_SIGNALS : List String := [ "429", "quota", "rate limit" ]

/-- Signals the endpoint maps to `configuration` (main.py:148). -/
def AUTH_SIGNALS : List String := [ "api key", "authentication", "unauthorized" ]

/-- Signals the endpoint maps to `service_unavailable` (main.py:152). -/
def UNAVAILABLE_SIGNALS : List String := [ "overloaded", "unavailable", "timeout" ]

/-- Signals the endpoint maps to `content_blocked` (main.py:156). -/
def BLOCKED_SIGNALS : List String := [ "safety", "blocked", "violation" ]

/-- `any(x in error_msg.lower() for x in signals)`. -/
def anySignal (signals : List String) (lowerMsg : String) : Bool :=
  signals.any (fun x => strIn x lowerMsg)

/-- Embedding of the `except` cascade of `chat_endpoint` (main.py:140-160):
maps `str(e)` to the surfaced error class and HTTP status. -/
def classify_error (error_msg : String) : String × Nat :=
  let m := lowerStr error_msg
  if anySignal RATE_SIGNALS m then ( "rate_limit", 429 )
  else if anySignal AUTH_SIGNALS m then ( "configuration", 500 )
  else if anySignal UNAVAILABLE_SIGNALS m then ( "service_unavailable", 503 )
  else if anySignal BLOCKED_SIGNALS m then ( "content_blocked", 400 )
  else ( "internal_server_error", 500 )

/-! ## Concrete adapter stubs used to evaluate the theorems -/

/-- The pair of steps a retried failure contributes: the invocation of the
failing attempt followed by its exponential back-off sleep. -/
def retryPair (i : Nat) : List RetryEvent :=
  [RetryEvent.invoke i, RetryEvent.backoff (BASE_DELAY_S * 2 ^ i)]

/-- A rate-limited exception carrying the HTTP 429 code. -/
def rlExc : PyExc := ⟨ some 429, none, "429 RESOURCE_EXHAUSTED quota" ⟩

/-- Adapter stub that fails with `rlExc` on the first `k` attempts and then
returns the text answer. -/
def out429K (k : Nat) : Nat → Except PyExc String :=
  fun i => if i < k then Except.error rlExc else Except.ok ( "answer" )

/-- Adapter stub that fails with `rlExc` on every attempt. -/
def always429 : Nat → Except PyExc String :=
  fun _ => Except.error rlExc

/-- An authentication failure: no 429 anywhere. -/
def authExc : PyExc := ⟨ none, some 401, "API key not valid. unauthorized" ⟩

/-- Adapter stub that always fails with the authentication error. -/
def authOutcome : Nat → Except PyExc String :=
  fun _ => Except.error authExc

/-- A failure whose only rate-limit signal is the word quota in its
message: no `code`, no `status_code`. -/
def quotaExc : PyExc := ⟨ none, none, "quota exceeded for metric" ⟩

/-- Adapter stub that always fails with `quotaExc`. -/
def quotaOutcome : Nat → Except PyExc String :=
  fun _ => Except.error quotaExc

/-- Provider stub that answers immediately whatever the contents. -/
def okProvider : List Content → Nat → Except PyExc String :=
  fun _ _ => Except.ok ( "ok" )

/-- A one-turn history used to vary the history between chat calls. -/
def histU : List ChatTurn := [ ⟨ "user", "hello" ⟩ ]

/-- A query with no keyword hit in any section. -/
def NOHIT_QUERY : String := "zzz"

/-- A query hitting only the keyword book of the Customer FAQ section. -/
def BOOK_QUERY : String := "book"

/-- The chat result produced by `okProvider` on `NOHIT_QUERY`. -/
def chatR1 : ChatResult := ⟨ "ok", (get_relevant_context NOHIT_QUERY).matched ⟩

/-- A query hitting the Business FAQ section three times (manage, schedule,
team) and the Customer FAQ section once (schedule). -/
def MANAGE_QUERY : String := "manage my schedule and team"

/-! ## Helper lemmas about the retry loop -/

theorem invocationsOf_append (l₁ l₂ : List RetryEvent) :
    invocationsOf (l₁ ++ l₂) = invocationsOf l₁ + invocationsOf l₂ := by
  simp [invocationsOf, List.filter_append]

theorem delaysOf_append (l₁ l₂ : List RetryEvent) :
    delaysOf (l₁ ++ l₂) = delaysOf l₁ ++ delaysOf l₂ := by
  simp [delaysOf, List.filterMap_append]

theorem invocationsOf_flatMap_retryPair (l : List Nat) :
    invocationsOf (l.flatMap retryPair) = l.length := by
  induction l with
  | nil => rfl
  | cons a l ih =>
    rw [List.flatMap_cons, invocationsOf_append, ih]
    have h1 : invocationsOf (retryPair a) = 1 := rfl
    rw [h1, List.length_cons]
    omega

theorem delaysOf_flatMap_retryPair (l : List Nat) :
    delaysOf (l.flatMap retryPair) = l.map (fun i => BASE_DELAY_S * 2 ^ i) := by
  induction l with
  | nil => rfl
  | cons a l ih =>
    rw [List.flatMap_cons, delaysOf_append, ih]
    rfl

theorem delays_chain_aux :
    ∀ (n a : Nat), ((List.range' a n).map (fun i => BASE_DELAY_S * 2 ^ i)).Chain'
      (fun x y => x < y ∧ y = 2 * x) := by
  intro n
  induction n with
  | zero => intro a; simp
  | succ n ih =>
    intro a
    rw [List.range'_succ]
    cases n with
    | zero => simp
    | succ m =>
      rw [List.range'_succ, List.map_cons, List.map_cons]
      have hpos : 0 < BASE_DELAY_S * 2 ^ a := by
        have h2 := Nat.two_pow_pos a
        show 0 < 2 * 2 ^ a
        omega
      have hdouble : BASE_DELAY_S * 2 ^ (a + 1) = 2 * (BASE_DELAY_S * 2 ^ a) := by
        rw [Nat.pow_succ]; ring
      refine List.Chain'.cons ?_ ?_
      · exact ⟨by omega, hdouble⟩
      · have h := ih (a + 1)
        rw [List.range'_succ, List.map_cons] at h
        exact h

theorem callRetryGo_fatal (outcome : Nat → Except PyExc String) (exc : PyExc)
    (fuel attempt : Nat) (hf : outcome attempt = Except.error exc)
    (hne : ¬ (excStatus exc = some 429 ∧ attempt < MAX_RETRIES)) :
    callRetryGo outcome (fuel + 1) attempt =
      (Except.error exc, [RetryEvent.invoke attempt]) := by
  simp only [callRetryGo, hf]
  rw [if_neg hne]

theorem callRetryGo_ok_of (outcome : Nat → Except PyExc String) (err : Nat → PyExc)
    (K : Nat) (t : String)
    (hfail : ∀ i, i < K → outcome i = Except.error (err i))
    (h429 : ∀ i, i < K → excStatus (err i) = some 429)
    (hok : outcome K = Except.ok t) (hK : K ≤ MAX_RETRIES) :
    ∀ fuel a, a + fuel = MAX_RETRIES + 1 → a ≤ K →
      callRetryGo outcome fuel a =
        (Except.ok t,
          (List.range' a (K - a)).flatMap retryPair ++ [RetryEvent.invoke K]) := by
  intro fuel
  induction fuel with
  | zero =>
    intro a h1 h2
    exact absurd h1 (by omega)
  | succ fuel ih =>
    intro a h1 h2
    by_cases hak : a < K
    · have hf := hfail a hak
      have he := h429 a hak
      simp only [callRetryGo, hf]
      rw [if_pos ⟨he, by omega⟩, ih (a + 1) (by omega) (by omega)]
      have hrange : K - a = (K - (a + 1)) + 1 := by omega
      rw [hrange, List.range'_succ, List.flatMap_cons]
      simp [retryPair]
    · have haK : a = K := by omega
      subst haK
      simp only [callRetryGo, hok]
      simp

theorem callRetryGo_allfail (outcome : Nat → Except PyExc String) (err : Nat → PyExc)
    (hfail : ∀ i, outcome i = Except.error (err i))
    (h429 : ∀ i, excStatus (err i) = some 429) :
    ∀ fuel a, a + fuel = MAX_RETRIES + 1 → 0 < fuel →
      callRetryGo outcome fuel a =
        (Except.error (err MAX_RETRIES),
          (List.range' a (MAX_RETRIES - a)).flatMap retryPair ++
            [RetryEvent.invoke MAX_RETRIES]) := by
  intro fuel
  induction fuel with
  | zero =>
    intro a h1 h2
    exact absurd h2 (by omega)
  | succ fuel ih =>
    intro a h1 _
    by_cases ha : a < MAX_RETRIES
    · simp only [callRetryGo, hfail a]
      rw [if_pos ⟨h429 a, ha⟩, ih (a + 1) (by omega) (by omega)]
      have hrange : MAX_RETRIES - a = (MAX_RETRIES - (a + 1)) + 1 := by omega
      rw [hrange, List.range'_succ, List.flatMap_cons]
      simp [retryPair]
    · have haM : a = MAX_RETRIES := by omega
      subst haM
      simp only [callRetryGo, hfail MAX_RETRIES]
      rw [if_neg (fun h => absurd h.2 (by omega))]
      simp

theorem callRetryGo_retry_step (outcome : Nat → Except PyExc String)
    (fuel attempt : Nat) (exc : PyExc)
    (hf : outcome attempt = Except.error exc)
    (hc : excStatus exc = some 429 ∧ attempt < MAX_RETRIES) :
    callRetryGo outcome (fuel + 1) attempt =
      ((callRetryGo outcome fuel (attempt + 1)).1,
        RetryEvent.invoke attempt :: RetryEvent.backoff (BASE_DELAY_S * 2 ^ attempt) ::
          (callRetryGo outcome fuel (attempt + 1)).2) := by
  simp only [callRetryGo, hf]
  rw [if_pos hc]

theorem one_le_invocations (outcome : Nat → Except PyExc String)
    (fuel attempt : Nat) (h : 0 < fuel) :
    1 ≤ invocationsOf (callRetryGo outcome fuel attempt).2 := by
  cases fuel with
  | zero => exact absurd h (by omega)
  | succ fuel =>
    cases houtcome : outcome attempt with
    | ok t =>
      have hstep : callRetryGo outcome (fuel + 1) attempt =
          (Except.ok t, [RetryEvent.invoke attempt]) := by
        simp only [callRetryGo, houtcome]
      rw [hstep]
      simp [invocationsOf, isInvokeEvent, List.filter]
    | error exc =>
      by_cases hc : excStatus exc = some 429 ∧ attempt < MAX_RETRIES
      · rw [callRetryGo_retry_step outcome fuel attempt exc houtcome hc]
        simp [invocationsOf, isInvokeEvent, List.filter]
      · rw [callRetryGo_fatal outcome exc fuel attempt houtcome hc]
        simp [invocationsOf, isInvokeEvent, List.filter]

/-- The 429-coded stub failure indeed reports status 429. -/
theorem rlExc_status : excStatus rlExc = some 429 := by decide

/-! ## Claims about the retry policy -/

/-- C2: a job whose provider call fails with a rate-limit failure exactly K
times (K ≤ 4) and then succeeds reaches Succeeded; the provider is invoked
exactly K+1 times; before the retry numbered `attempt` the worker waits
`BASE_DELAY * 2 ^ attempt`, so the sequence of back-off delays is exactly
`[BASE_DELAY * 2 ^ 0, ..., BASE_DELAY * 2 ^ (K-1)]`, strictly increasing
and doubling. -/
theorem claim2_rate_limit_retry_then_success
    (outcome : Nat → Except PyExc String) (err : Nat → PyExc) (K : Nat) (t : String)
    (hK : K ≤ 4)
    (hfail : ∀ i, i < K → outcome i = Except.error (err i))
    (h429 : ∀ i, i < K → excStatus (err i) = some 429)
    (hok : outcome K = Except.ok t) :
    (_call_with_retry outcome).1 = Except.ok t ∧
    invocationsOf (_call_with_retry outcome).2 = K + 1 ∧
    delaysOf (_call_with_retry outcome).2 =
      (List.range K).map (fun i => BASE_DELAY_S * 2 ^ i) ∧
    (delaysOf (_call_with_retry outcome).2).Chain' (fun a b => a < b ∧ b = 2 * a) := by
  have h := callRetryGo_ok_of outcome err K t hfail h429 hok hK
    (MAX_RETRIES + 1) 0 (by omega) (Nat.zero_le K)
  have hcall : _call_with_retry outcome =
      (Except.ok t,
        (List.range' 0 (K - 0)).flatMap retryPair ++ [RetryEvent.invoke K]) := h
  have h1 : (_call_with_retry outcome).1 = Except.ok t := by rw [hcall]
  have h2 : (_call_with_retry outcome).2 =
      (List.range K).flatMap retryPair ++ [RetryEvent.invoke K] := by
    rw [hcall, List.range_eq_range', Nat.sub_zero]
  refine ⟨h1, ?_, ?_, ?_⟩
  · rw [h2, invocationsOf_append, invocationsOf_flatMap_retryPair, List.length_range]
    rfl
  · rw [h2, delaysOf_append, delaysOf_flatMap_retryPair]
    simp [delaysOf, List.filterMap]
  · rw [h2, delaysOf_append, delaysOf_flatMap_retryPair]
    have hc := delays_chain_aux K 0
    rw [← List.range_eq_range'] at hc
    simpa [delaysOf, List.filterMap] using hc

/-- Witness for C2 at K = 2: the stub fails twice with a 429 then answers;
the job succeeds after 3 invocations with delays 2 s then 4 s. -/
theorem claim2_witness :
    (2 ≤ 4) ∧
    ((_call_with_retry (out429K 2)).1 = Except.ok ( "answer" ) ∧
      invocationsOf (_call_with_retry (out429K 2)).2 = 2 + 1 ∧
      delaysOf (_call_with_retry (out429K 2)).2 =
        (List.range 2).map (fun i => BASE_DELAY_S * 2 ^ i) ∧
      (delaysOf (_call_with_retry (out429K 2)).2).Chain'
        (fun a b => a < b ∧ b = 2 * a)) :=
  ⟨by omega,
    claim2_rate_limit_retry_then_success (out429K 2) (fun _ => rlExc) 2 ( "answer" )
      (by omega)
      (fun i hi => by simp [out429K, hi])
      (fun i _ => rlExc_status)
      rfl⟩

/-- C3: a job whose provider call fails with a rate-limit failure on every
attempt reaches Failed after exactly 5 provider invocations (initial + 4
retries), and the failure attached to the terminal state is the error
observed on the last attempt. -/
theorem claim3_rate_limit_exhaustion
    (outcome : Nat → Except PyExc String) (err : Nat → PyExc)
    (hfail : ∀ i, outcome i = Except.error (err i))
    (h429 : ∀ i, excStatus (err i) = some 429) :
    (_call_with_retry outcome).1 = Except.error (err 4) ∧
    invocationsOf (_call_with_retry outcome).2 = 5 := by
  have h := callRetryGo_allfail outcome err hfail h429
    (MAX_RETRIES + 1) 0 (by omega) (by omega)
  have hcall : _call_with_retry outcome =
      (Except.error (err MAX_RETRIES),
        (List.range' 0 (MAX_RETRIES - 0)).flatMap retryPair ++
          [RetryEvent.invoke MAX_RETRIES]) := h
  rw [hcall]
  refine ⟨rfl, ?_⟩
  rw [invocationsOf_append, invocationsOf_flatMap_retryPair, List.length_range']
  rfl

/-- Witness for C3: the always-429 stub fails all 5 attempts; the job fails
with the last error after exactly 5 invocations. -/
theorem claim3_witness :
    (_call_with_retry always429).1 = Except.error rlExc ∧
    invocationsOf (_call_with_retry always429).2 = 5 :=
  claim3_rate_limit_exhaustion always429 (fun _ => rlExc)
    (fun _ => rfl) (fun _ => rlExc_status)

/-- C9: a job whose first provider call fails with a non-rate-limit failure
(no 429 status) reaches Failed after exactly 1 provider invocation, with no
back-off, and the worker settles the caller's future with exactly that
failure. -/
theorem claim9_non_rate_limit_fails_once
    (outcome : Nat → Except PyExc String) (exc : PyExc)
    (h0 : outcome 0 = Except.error exc) (hne : excStatus exc ≠ some 429) :
    (_call_with_retry outcome).1 = Except.error exc ∧
    invocationsOf (_call_with_retry outcome).2 = 1 ∧
    delaysOf (_call_with_retry outcome).2 = [] ∧
    _queue_worker [Job.mk outcome] =
      [Event.invoke 0 0, Event.settle 0 (Except.error exc)] := by
  have h := callRetryGo_fatal outcome exc MAX_RETRIES 0 h0 (fun hc => hne hc.1)
  have hcall : _call_with_retry outcome =
      (Except.error exc, [RetryEvent.invoke 0]) := h
  refine ⟨by rw [hcall], by rw [hcall]; rfl, by rw [hcall]; rfl, ?_⟩
  simp [_queue_worker, workerFrom, jobEvents, hcall, tagEvent]

/-- Witness for C9: an authentication failure (status 401) fails the job on
the very first attempt and is the settled exception. -/
theorem claim9_witness :
    (_call_with_retry authOutcome).1 = Except.error authExc ∧
    invocationsOf (_call_with_retry authOutcome).2 = 1 ∧
    delaysOf (_call_with_retry authOutcome).2 = [] ∧
    _queue_worker [Job.mk authOutcome] =
      [Event.invoke 0 0, Event.settle 0 (Except.error authExc)] :=
  claim9_non_rate_limit_fails_once authOutcome authExc rfl (by decide)

/-- C8 counterexample: a provider failure whose only rate-limit signal is
the word quota in its message (no 429 code or status attribute) IS
classified `rate_limit` by the boundary classification, yet the dispatcher
does NOT retry it: the job fails after a single invocation. -/
theorem claim8_counterexample :
    (classify_error quotaExc.msg).1 = "rate_limit" ∧
    excStatus quotaExc ≠ some 429 ∧
    (_call_with_retry quotaOutcome).1 = Except.error quotaExc ∧
    invocationsOf (_call_with_retry quotaOutcome).2 = 1 :=
  ⟨by decide, by decide, rfl, rfl⟩

/-- C8 amended: only failures whose exception carries a `code` or
`status_code` of 429 are treated as retryable by the dispatcher; for such
a failure on the first attempt the worker sleeps `BASE_DELAY * 2 ^ 0` and
invokes the provider again instead of failing the job. -/
theorem claim8_rate_limit_code_is_retried
    (outcome : Nat → Except PyExc String) (exc : PyExc)
    (h0 : outcome 0 = Except.error exc) (h429 : excStatus exc = some 429) :
    (_call_with_retry outcome).2.take 2 =
      [RetryEvent.invoke 0, RetryEvent.backoff (BASE_DELAY_S * 2 ^ 0)] ∧
    2 ≤ invocationsOf (_call_with_retry outcome).2 := by
  have hcall : _call_with_retry outcome =
      ((callRetryGo outcome MAX_RETRIES (0 + 1)).1,
        RetryEvent.invoke 0 :: RetryEvent.backoff (BASE_DELAY_S * 2 ^ 0) ::
          (callRetryGo outcome MAX_RETRIES (0 + 1)).2) :=
    callRetryGo_retry_step outcome MAX_RETRIES 0 exc h0 ⟨h429, by decide⟩
  have hx : ∀ (L : List RetryEvent) (a d : Nat),
      invocationsOf (RetryEvent.invoke a :: RetryEvent.backoff d :: L) =
        invocationsOf L + 1 := by
    intro L a d
    simp [invocationsOf, List.filter, isInvokeEvent]
  refine ⟨by rw [hcall]; rfl, ?_⟩
  have h1 := one_le_invocations outcome MAX_RETRIES (0 + 1) (by decide)
  rw [hcall]
  show 2 ≤ invocationsOf (RetryEvent.invoke 0 ::
    RetryEvent.backoff (BASE_DELAY_S * 2 ^ 0) ::
      (callRetryGo outcome MAX_RETRIES (0 + 1)).2)
  rw [hx]
  omega

/-- Witness for C8 (amended): a 429-coded failure on attempt 0 leads to a
back-off of 2 s and a second invocation. -/
theorem claim8_witness :
    (_call_with_retry (out429K 1)).2.take 2 =
      [RetryEvent.invoke 0, RetryEvent.backoff (BASE_DELAY_S * 2 ^ 0)] ∧
    2 ≤ invocationsOf (_call_with_retry (out429K 1)).2 :=
  claim8_rate_limit_code_is_retried (out429K 1) rlExc rfl rlExc_status

/-! ## Claim C1: FIFO serialization of the worker -/

theorem eventRank_tagEvent (i : Nat) (e : RetryEvent) :
    eventRank (tagEvent i e) = 2 * i := by
  cases e <;> rfl

theorem rank_le_of_mem_jobEvents (i : Nat) (j : Job) (e : Event)
    (h : e ∈ jobEvents i j) : 2 * i ≤ eventRank e ∧ eventRank e ≤ 2 * i + 1 := by
  rw [jobEvents, List.mem_append] at h
  rcases h with h | h
  · rcases List.mem_map.mp h with ⟨x, -, rfl⟩
    rw [eventRank_tagEvent]
    omega
  · rcases List.mem_singleton.mp h with rfl
    show 2 * i ≤ 2 * i + 1 ∧ 2 * i + 1 ≤ 2 * i + 1
    omega

theorem pairwise_rank_jobEvents (i : Nat) (j : Job) :
    (jobEvents i j).Pairwise (fun a b => eventRank a ≤ eventRank b) := by
  rw [jobEvents]
  rw [List.pairwise_append]
  refine ⟨?_, List.pairwise_singleton _ _, ?_⟩
  · refine List.pairwise_of_forall_mem_list ?_
    intro a ha b hb
    rcases List.mem_map.mp ha with ⟨x, -, rfl⟩
    rcases List.mem_map.mp hb with ⟨y, -, rfl⟩
    rw [eventRank_tagEvent, eventRank_tagEvent]
  · intro a ha b hb
    rcases List.mem_map.mp ha with ⟨x, -, rfl⟩
    rcases List.mem_singleton.mp hb with rfl
    rw [eventRank_tagEvent]
    show 2 * i ≤ 2 * i + 1
    omega

theorem rank_le_of_mem_workerFrom :
    ∀ (jobs : List Job) (i : Nat) (e : Event), e ∈ workerFrom jobs i →
      2 * i ≤ eventRank e := by
  intro jobs
  induction jobs with
  | nil => intro i e h; exact absurd h (List.not_mem_nil e)
  | cons j rest ih =>
    intro i e h
    rw [workerFrom, List.mem_append] at h
    rcases h with h | h
    · exact (rank_le_of_mem_jobEvents i j e h).1
    · have := ih (i + 1) e h
      omega

theorem pairwise_rank_workerFrom :
    ∀ (jobs : List Job) (i : Nat),
      (workerFrom jobs i).Pairwise (fun a b => eventRank a ≤ eventRank b) := by
  intro jobs
  induction jobs with
  | nil => intro i; exact List.Pairwise.nil
  | cons j rest ih =>
    intro i
    rw [workerFrom, List.pairwise_append]
    refine ⟨pairwise_rank_jobEvents i j, ih (i + 1), ?_⟩
    intro a ha b hb
    have h1 := (rank_le_of_mem_jobEvents i j a ha).2
    have h2 := rank_le_of_mem_workerFrom rest (i + 1) b hb
    omega

theorem settleJob_tagEvent (i : Nat) (e : RetryEvent) :
    settleJob (tagEvent i e) = none := by
  cases e <;> rfl

theorem settles_of_jobEvents (i : Nat) (j : Job) :
    (jobEvents i j).filterMap settleJob = [i] := by
  rw [jobEvents, List.filterMap_append]
  have h1 : ((_call_with_retry j.outcome).2.map (tagEvent i)).filterMap settleJob = [] := by
    rw [List.filterMap_map]
    refine List.filterMap_eq_nil.mpr ?_
    intro e _
    exact settleJob_tagEvent i e
  rw [h1]
  rfl

theorem settles_of_workerFrom :
    ∀ (jobs : List Job) (i : Nat),
      (workerFrom jobs i).filterMap settleJob = List.range' i jobs.length := by
  intro jobs
  induction jobs with
  | nil => intro i; rfl
  | cons j rest ih =>
    intro i
    rw [workerFrom, List.filterMap_append, settles_of_jobEvents, ih,
      List.length_cons, List.range'_succ]
    rfl

/-- C1: the single worker serializes jobs in strict FIFO order.  In the
worker trace for any queue of jobs, event ranks are monotone — every event
of job `i` (provider invocations, back-off sleeps) precedes the settlement
of job `i`, which precedes every event of any job submitted later — so no
job begins executing against the provider before every earlier job has
reached its terminal state and had its future fulfilled.  Moreover the
trace settles exactly the jobs `0, 1, ..., n-1`, once each, in arrival
order. -/
theorem claim1_fifo_serialized (jobs : List Job) :
    ((_queue_worker jobs).map eventRank).Pairwise (fun a b => a ≤ b) ∧
    (_queue_worker jobs).filterMap settleJob = List.range jobs.length := by
  constructor
  · rw [List.pairwise_map]
    exact pairwise_rank_workerFrom jobs 0
  · rw [_queue_worker, settles_of_workerFrom, List.range_eq_range']

/-! ## Claims C6, C7, C10: prompt assembly, grounding, history independence -/

/-- C6: for every history and current message the assembled turn sequence
is, in order: one synthetic user turn carrying the system prompt (which
embeds the reference corpus), one synthetic model turn carrying the fixed
grounding acknowledgment, each history turn in order with role assistant
mapped to model and role user passed through with text unchanged, and a
final user turn carrying the current message; the total turn count is
`2 + historyLength + 1`. -/
theorem claim6_prompt_assembly (history : List ChatTurn) (current : String) :
    (assembleContents history current).length = 2 + history.length + 1 ∧
    (assembleContents history current).take 2 =
      [⟨ "user", _build_system_prompt ⟩, ⟨ "model", GROUNDING_ACK ⟩] ∧
    (assembleContents history current).drop 2 =
      history.map historyContent ++ [⟨ "user", current ⟩] ∧
    ∀ turn : ChatTurn,
      (historyContent turn).role = (if turn.role = "assistant" then "model" else "user") ∧
      (historyContent turn).text = turn.text := by
  refine ⟨?_, rfl, rfl, ?_⟩
  · simp only [assembleContents, List.length_append, List.length_cons,
      List.length_map, List.length_nil]
    omega
  · intro turn
    refine ⟨?_, rfl⟩
    rw [historyContent]
    by_cases h : turn.role = "assistant"
    · simp [h]
    · simp [h]

/-- C7 counterexample: for the message book the selector keeps only the
Customer FAQ section, yet the request's first turn carries the system
prompt built around the FULL knowledge base; the grounding text embedded in
the prompt is not the selector's chosen material. -/
theorem claim7_counterexample :
    (assembleContents [] BOOK_QUERY).head? =
      some ⟨ "user", PROMPT_HEADER ++ get_full_knowledge_base ++ PROMPT_FOOTER ⟩ ∧
    (get_relevant_context BOOK_QUERY).matched = [ "4. Customer FAQ" ] ∧
    (get_relevant_context BOOK_QUERY).full_text ≠ get_full_knowledge_base := by
  have hmatched : matchedSections (lowerStr BOOK_QUERY) =
      SECTIONS.filter (fun sec => decide (0 < hitsOf (lowerStr BOOK_QUERY) sec)) := by
    rw [matchedSections]
    apply List.mergeSort_of_sorted
    decide
  have hsel : selectedSections (lowerStr BOOK_QUERY) =
      SECTIONS.filter (fun sec => decide (0 < hitsOf (lowerStr BOOK_QUERY) sec)) := by
    rw [selectedSections, hmatched, if_neg]
    decide
  refine ⟨rfl, ?_, ?_⟩
  · show (selectedSections (lowerStr BOOK_QUERY)).map (fun s => s.title) = _
    rw [hsel]
    decide
  · show String.intercalate KB_SEP
      ((selectedSections (lowerStr BOOK_QUERY)).map sectionBlock) ≠ _
    rw [hsel]
    decide

/-- C7 amended: the grounding text attached to every request is constant —
the first turn always carries the fixed system prompt, in which the full
knowledge base is embedded, regardless of message and history; the
selector's output determines only the matchedSections reported with the
answer. -/
theorem claim7_full_corpus_grounding (history : List ChatTurn) (msg : String) :
    (assembleContents history msg).head? = some ⟨ "user", _build_system_prompt ⟩ ∧
    get_full_knowledge_base.data <:+: _build_system_prompt.data ∧
    ∀ provider : List Content → Nat → Except PyExc String,
      Except.map ChatResult.matched_sections (chat provider history msg) =
        Except.map (fun _ => (get_relevant_context msg).matched)
          (_call_with_retry (provider (assembleContents history msg))).1 := by
  refine ⟨rfl, ⟨PROMPT_HEADER.data, PROMPT_FOOTER.data, rfl⟩, ?_⟩
  intro provider
  cases hres : (_call_with_retry (provider (assembleContents history msg))).1 with
  | ok a => simp [chat, hres, Except.map]
  | error e => simp [chat, hres, Except.map]

/-- Whenever `chat` succeeds, the reported matched sections are exactly the
selector's output on the current message. -/
theorem chat_ok_matched (provider : List Content → Nat → Except PyExc String)
    (history : List ChatTurn) (msg : String) (r : ChatResult)
    (h : chat provider history msg = Except.ok r) :
    r.matched_sections = (get_relevant_context msg).matched := by
  rw [chat] at h
  cases hres : (_call_with_retry (provider (assembleContents history msg))).1 with
  | ok a =>
    rw [hres] at h
    cases h
    rfl
  | error e =>
    rw [hres] at h
    cases h

/-- C10: two chat calls with the same current message but arbitrary —
possibly different — histories report identical matchedSections: section
selection is a function of the current message alone. -/
theorem claim10_history_independent_selection
    (provider : List Content → Nat → Except PyExc String)
    (hist1 hist2 : List ChatTurn) (msg : String) (r1 r2 : ChatResult)
    (ha : chat provider hist1 msg = Except.ok r1)
    (hb : chat provider hist2 msg = Except.ok r2) :
    r1.matched_sections = r2.matched_sections := by
  rw [chat_ok_matched provider hist1 msg r1 ha,
    chat_ok_matched provider hist2 msg r2 hb]

/-- Witness for C10: the empty history and a one-turn history, same
message, same matched sections. -/
theorem claim10_witness :
    chat okProvider [] NOHIT_QUERY = Except.ok chatR1 ∧
    chat okProvider histU NOHIT_QUERY = Except.ok chatR1 ∧
    chatR1.matched_sections = chatR1.matched_sections :=
  ⟨rfl, rfl,
    claim10_history_independent_selection okProvider [] histU NOHIT_QUERY
      chatR1 chatR1 rfl rfl⟩

/-! ## Claims C4, C5: the keyword selector -/

theorem hitRank_trans (l : String) :
    ∀ a b c : Section, hitRank l a b → hitRank l b c → hitRank l a c := by
  intro a b c hab hbc
  have h1 : hitsOf l b ≤ hitsOf l a := by simpa [hitRank] using hab
  have h2 : hitsOf l c ≤ hitsOf l b := by simpa [hitRank] using hbc
  simp only [hitRank, decide_eq_true_eq]
  omega

theorem hitRank_total (l : String) :
    ∀ a b : Section, hitRank l a b || hitRank l b a := by
  intro a b
  simp only [hitRank, Bool.or_eq_true, decide_eq_true_eq]
  omega

/-- C5: a query with zero keyword hits across all sections (the empty
query included) selects every section of the catalog in catalog order, so
matchedTitles has the full catalog size; and for every query whatsoever the
selector returns a non-empty matchedTitles — it has no failure case. -/
theorem claim5_zero_hit_full_fallback :
    (∀ query : String, (∀ sec ∈ SECTIONS, hitsOf (lowerStr query) sec = 0) →
      (get_relevant_context query).matched = SECTIONS.map (fun s => s.title) ∧
      (get_relevant_context query).matched.length = SECTIONS.length) ∧
    ∀ query : String, (get_relevant_context query).matched ≠ [] := by
  constructor
  · intro query hzero
    have hfilter : SECTIONS.filter
        (fun sec => decide (0 < hitsOf (lowerStr query) sec)) = [] := by
      refine List.filter_eq_nil_iff.mpr ?_
      intro a ha
      simp [hzero a ha]
    have hmt : matchedSections (lowerStr query) = [] := by
      rw [matchedSections, hfilter, List.mergeSort_nil]
    have hsel : selectedSections (lowerStr query) = SECTIONS := by
      rw [selectedSections, hmt]
      rfl
    constructor
    · show (selectedSections (lowerStr query)).map (fun s => s.title) = _
      rw [hsel]
    · show ((selectedSections (lowerStr query)).map (fun s => s.title)).length = _
      rw [hsel, List.length_map]
  · intro query
    show (selectedSections (lowerStr query)).map (fun s => s.title) ≠ []
    rw [selectedSections]
    by_cases h : (matchedSections (lowerStr query)).isEmpty
    · rw [if_pos h]
      decide
    · rw [if_neg h]
      intro hcontra
      exact h (List.isEmpty_iff.mpr (List.map_eq_nil_iff.mp hcontra))

/-- Witness for C5 at the empty query: no hits anywhere, all 7 sections
selected in catalog order. -/
theorem claim5_witness :
    (∀ sec ∈ SECTIONS, hitsOf (lowerStr ( "" )) sec = 0) ∧
    (get_relevant_context ( "" )).matched = SECTIONS.map (fun s => s.title) ∧
    (get_relevant_context ( "" )).matched.length = SECTIONS.length ∧
    (get_relevant_context ( "" )).matched ≠ [] := by
  have hz : ∀ sec ∈ SECTIONS, hitsOf (lowerStr ( "" )) sec = 0 := by decide
  exact ⟨hz, (claim5_zero_hit_full_fallback.1 ( "" ) hz).1,
    (claim5_zero_hit_full_fallback.1 ( "" ) hz).2,
    claim5_zero_hit_full_fallback.2 ( "" )⟩

/-- C4 counterexample to the universally quantified claim: for the empty
query no section has a positive hit count, yet the selector does not keep
exactly the (zero) positive-hit sections — the fallback returns all 7
titles. -/
theorem claim4_counterexample :
    SECTIONS.filter (fun sec => decide (0 < hitsOf (lowerStr ( "" )) sec)) = [] ∧
    (get_relevant_context ( "" )).matched ≠
      (SECTIONS.filter (fun sec => decide (0 < hitsOf (lowerStr ( "" )) sec))).map
        (fun s => s.title) := by
  constructor
  · decide
  · have h := (claim5_zero_hit_full_fallback.1 ( "" ) (by decide)).1
    rw [h]
    decide

/-- C4 amended: for every query for which at least one section has a
positive hit count, the selector keeps exactly the positive-hit sections
(as a permutation of the catalog filter), orders them by hit count
descending (so a section with strictly more hits always appears first),
and breaks ties stably — within each equal-hit class the catalog order is
preserved.  (For zero-hit queries the full-catalog fallback of C5 applies
instead.)  matchedTitles is the title image of this ordered selection. -/
theorem claim4_keyword_ranking (query : String)
    (hhit : ∃ sec ∈ SECTIONS, 0 < hitsOf (lowerStr query) sec) :
    (get_relevant_context query).matched =
      (selectedSections (lowerStr query)).map (fun s => s.title) ∧
    (selectedSections (lowerStr query)).Perm
      (SECTIONS.filter (fun sec => decide (0 < hitsOf (lowerStr query) sec))) ∧
    (selectedSections (lowerStr query)).Pairwise
      (fun a b => hitsOf (lowerStr query) b ≤ hitsOf (lowerStr query) a) ∧
    ∀ k : Nat,
      (selectedSections (lowerStr query)).filter
          (fun sec => decide (hitsOf (lowerStr query) sec = k)) =
        (SECTIONS.filter (fun sec => decide (0 < hitsOf (lowerStr query) sec))).filter
          (fun sec => decide (hitsOf (lowerStr query) sec = k)) := by
  obtain ⟨sec0, hsec0, hpos0⟩ := hhit
  have hmem : sec0 ∈ SECTIONS.filter
      (fun sec => decide (0 < hitsOf (lowerStr query) sec)) := by
    rw [List.mem_filter]
    exact ⟨hsec0, by simpa using hpos0⟩
  have hne : SECTIONS.filter
      (fun sec => decide (0 < hitsOf (lowerStr query) sec)) ≠ [] :=
    List.ne_nil_of_mem hmem
  have hsel : selectedSections (lowerStr query) =
      (SECTIONS.filter (fun sec => decide (0 < hitsOf (lowerStr query) sec))).mergeSort
        (hitRank (lowerStr query)) := by
    rw [selectedSections, matchedSections, if_neg]
    intro hempty
    have hlen := List.isEmpty_iff_length_eq_zero.mp hempty
    rw [List.length_mergeSort] at hlen
    exact hne (List.eq_nil_of_length_eq_zero hlen)
  refine ⟨rfl, ?_, ?_, ?_⟩
  · rw [hsel]
    exact List.mergeSort_perm _ _
  · rw [hsel]
    exact (List.sorted_mergeSort (hitRank_trans (lowerStr query))
      (hitRank_total (lowerStr query)) _).imp
      (fun hab => by simpa [hitRank] using hab)
  · intro k
    rw [hsel]
    have hCsub : List.Sublist
        ((SECTIONS.filter
          (fun sec => decide (0 < hitsOf (lowerStr query) sec))).filter
          (fun sec => decide (hitsOf (lowerStr query) sec = k)))
        (SECTIONS.filter (fun sec => decide (0 < hitsOf (lowerStr query) sec))) :=
      List.filter_sublist _
    have hCpair : ((SECTIONS.filter
          (fun sec => decide (0 < hitsOf (lowerStr query) sec))).filter
        (fun sec => decide (hitsOf (lowerStr query) sec = k))).Pairwise
        (fun a b => hitRank (lowerStr query) a b) := by
      refine List.pairwise_of_forall_mem_list ?_
      intro a ha b hb
      have hak : hitsOf (lowerStr query) a = k := by
        simpa using (List.mem_filter.mp ha).2
      have hbk : hitsOf (lowerStr query) b = k := by
        simpa using (List.mem_filter.mp hb).2
      simp [hitRank, hak, hbk]
    have hCsl := List.sublist_mergeSort (hitRank_trans (lowerStr query))
      (hitRank_total (lowerStr query)) hCpair hCsub
    have hfix : ((SECTIONS.filter
          (fun sec => decide (0 < hitsOf (lowerStr query) sec))).filter
        (fun sec => decide (hitsOf (lowerStr query) sec = k))).filter
        (fun sec => decide (hitsOf (lowerStr query) sec = k)) =
        (SECTIONS.filter
          (fun sec => decide (0 < hitsOf (lowerStr query) sec))).filter
        (fun sec => decide (hitsOf (lowerStr query) sec = k)) := by
      refine List.filter_eq_self.mpr ?_
      intro a ha
      exact (List.mem_filter.mp ha).2
    have hsub2 := hCsl.filter (fun sec => decide (hitsOf (lowerStr query) sec = k))
    rw [hfix] at hsub2
    have hperm := (List.mergeSort_perm (SECTIONS.filter
        (fun sec => decide (0 < hitsOf (lowerStr query) sec)))
        (hitRank (lowerStr query))).filter
      (fun sec => decide (hitsOf (lowerStr query) sec = k))
    exact (hsub2.eq_of_length hperm.length_eq.symm).symm

/-- Witness for C4 on a two-section query: Business FAQ scores 3 and
Customer FAQ scores 1, so both are kept, in that order. -/
theorem claim4_witness :
    (∃ sec ∈ SECTIONS, 0 < hitsOf (lowerStr MANAGE_QUERY) sec) ∧
    ((get_relevant_context MANAGE_QUERY).matched =
      (selectedSections (lowerStr MANAGE_QUERY)).map (fun s => s.title) ∧
    (selectedSections (lowerStr MANAGE_QUERY)).Perm
      (SECTIONS.filter (fun sec => decide (0 < hitsOf (lowerStr MANAGE_QUERY) sec))) ∧
    (selectedSections (lowerStr MANAGE_QUERY)).Pairwise
      (fun a b => hitsOf (lowerStr MANAGE_QUERY) b ≤ hitsOf (lowerStr MANAGE_QUERY) a) ∧
    ∀ k : Nat,
      (selectedSections (lowerStr MANAGE_QUERY)).filter
          (fun sec => decide (hitsOf (lowerStr MANAGE_QUERY) sec = k)) =
        (SECTIONS.filter
          (fun sec => decide (0 < hitsOf (lowerStr MANAGE_QUERY) sec))).filter
          (fun sec => decide (hitsOf (lowerStr MANAGE_QUERY) sec = k))) :=
  ⟨by decide, claim4_keyword_ranking MANAGE_QUERY (by decide)⟩

end RagServer
